import Mathlib

/-!
Shallow embedding of the task persistence module of the productiviti
repository (`src/modules/database.py`, class `TaskDB` over one SQLite table
`tasks`), together with proofs about the claims of its specification.

Modelling notes, all taken from the source and SQLite semantics:

* A SQLite column value (equally, a Python value bound to or read from a
  column) is `null`, an integer, or a text string.  The repository never
  binds reals or blobs, so those variants are omitted.
* The `tasks` table declares `due_date date not null default 0`.  The
  declared type `date` contains none of the substrings INT/CHAR/CLOB/TEXT/
  BLOB/REAL/FLOA/DOUB, so the column has NUMERIC affinity: a bound text
  value that is a well-formed integer literal is converted to an integer on
  storage.  In particular the unset sentinel `"0"` is stored as the integer
  `0`, while a date string like `"2099-01-01"` is stored as text.  This is
  modelled by `numAffinity` (restricted to integer literals; the repository
  never binds real literals).  All other columns have TEXT or INTEGER
  affinity, under which the values the repository binds are stored
  unchanged.
* `_create_tasks_list` reads nine named columns from each row; reading a
  column that the SELECT did not produce raises in Python
  (`sqlite3.Row.__getitem__` → IndexError).  Rows are therefore embedded as
  association lists from column names to values, and `_create_tasks_list`
  returns `Except String`.
* Binding `NULL` for a NOT NULL column makes the INSERT fail with an
  integrity error and no row is inserted; the schema default is only used
  when a column is absent from the INSERT's column list, and `add_task`
  always lists every column.
* `UPDATE ... WHERE id = ?` against an id with no matching row affects no
  rows and raises no error; likewise the soft delete in `remove_task`.
* The autoincrement id starts at 1 and is never reused; the state carries
  the next id to assign.
-/

namespace Productiviti

/-- A dynamically typed SQLite/Python value: `NULL`/`None`, an integer, or a
text string. -/
inductive SQLVal where
  | null : SQLVal
  | int : Int → SQLVal
  | text : String → SQLVal
deriving DecidableEq, Repr

/-- Python truthiness of a value, as used by `bool(...)` in
`_create_tasks_list` and by `task.created_at or ...` in `add_task`:
`None` and `0` and `""` are falsy, everything else is truthy. -/
def pyTruthy : SQLVal → Bool
  | SQLVal.null => false
  | SQLVal.int n => n != 0
  | SQLVal.text s => s != ""

def SQLVal.isText : SQLVal → Bool
  | SQLVal.text _ => true
  | _ => false

def SQLVal.isInt : SQLVal → Bool
  | SQLVal.int _ => true
  | _ => false

def SQLVal.isNull : SQLVal → Bool
  | SQLVal.null => true
  | _ => false

/-- Value of a nonempty digit string, accumulator style. -/
def digitsVal : List Char → Nat → Option Nat
  | [], acc => some acc
  | c :: cs, acc =>
    if c.isDigit then digitsVal cs (acc * 10 + (c.toNat - 48)) else none

/-- Value of a nonempty string of decimal digits, `none` otherwise. -/
def parseDigits : List Char → Option Nat
  | [] => none
  | ds => digitsVal ds 0

/-- SQLite's recognition of a well-formed integer literal (an optional sign
followed by one or more decimal digits), and its value. -/
def intLiteral (s : String) : Option Int :=
  match s.data with
  | '-' :: ds => (parseDigits ds).map (fun n => -(n : Int))
  | '+' :: ds => (parseDigits ds).map (fun n => (n : Int))
  | ds => (parseDigits ds).map (fun n => (n : Int))

/-- Whether every character is a decimal digit. -/
def allDigits : List Char → Bool
  | [] => true
  | c :: cs => c.isDigit && allDigits cs

/-- An optional sign followed by one or more decimal digits (the exponent
part of a real literal). -/
def signedDigits : List Char → Bool
  | '-' :: ds => !ds.isEmpty && allDigits ds
  | '+' :: ds => !ds.isEmpty && allDigits ds
  | ds => !ds.isEmpty && allDigits ds

/-- Split at the first occurrence of the given marker character, when
present. -/
def splitAtChar (m : Char) : List Char → List Char × Option (List Char)
  | [] => ([], none)
  | c :: cs =>
    if c = m then ([], some cs)
    else
      match splitAtChar m cs with
      | (before, rest) => (c :: before, rest)

/-- SQLite's recognition of a well-formed real literal: an optional sign,
then a digit mantissa carrying a decimal point (`"1.5"`, `".5"`, `"2."`)
and/or a decimal exponent (`"2e3"`, `"1E-2"`), with at least one mantissa
digit.  In a NUMERIC-affinity column SQLite converts such text to a REAL
value. -/
def realLiteral (s : String) : Bool :=
  match
    (match s.data with
     | '-' :: ds => ds
     | '+' :: ds => ds
     | ds => ds) with
  | body =>
    match splitAtChar 'e' body with
    | (mant0, expo0) =>
      match (if expo0.isSome then (mant0, expo0) else splitAtChar 'E' body) with
      | (mant, expo) =>
        match splitAtChar '.' mant with
        | (ip, fp) =>
          allDigits ip &&
          (match fp with
           | some f => allDigits f
           | none => true) &&
          (!ip.isEmpty ||
            (match fp with
             | some f => !f.isEmpty
             | none => false)) &&
          (fp.isSome || expo.isSome) &&
          (match expo with
           | some e => signedDigits e
           | none => true)

/-- NUMERIC (and INTEGER) column affinity, restricted to the value domain
the repository uses: a text value that is a well-formed integer literal is
converted to the corresponding integer on storage; every other modelled
value is stored unchanged.  The `due_date` column (declared type `date`)
and the integer columns have this affinity.

Restriction of the model: a text that is a well-formed *real* literal
(`realLiteral`, e.g. `"1.5"`, `"0.0"`, `"2e3"`) is converted by SQLite to
a REAL value, which lies outside the `SQLVal` domain (the repository's
due-date domain is a `YYYY-MM-DD` date string or the sentinel `"0"`, never
a real literal).  Every theorem that depends on `numAffinity` leaving a
text unchanged therefore excludes real literals explicitly (see
`dueNonNumericText`). -/
def numAffinity : SQLVal → SQLVal
  | SQLVal.text s =>
    match intLiteral s with
    | some n => SQLVal.int n
    | none => SQLVal.text s
  | v => v

/-- TEXT column affinity on the repository's value domain: integers are
converted to their decimal text; text and NULL are stored unchanged.  The
`name`, `description`, `created_at` and `meta_data` columns have this
affinity. -/
def textAffinity : SQLVal → SQLVal
  | SQLVal.int n => SQLVal.text (toString n)
  | v => v

/-- The `Task` dataclass of `database.py`.  Fields hold dynamically typed
Python values; `is_complete` and `is_hidden` are the two fields that
`_create_tasks_list` forces to `bool(...)`. -/
structure Task where
  id : SQLVal
  name : SQLVal
  description : SQLVal
  priority : SQLVal
  created_at : SQLVal
  due_date : SQLVal
  is_complete : Bool
  is_hidden : Bool
  meta_data : SQLVal
deriving DecidableEq, Repr

/-- One stored row of the `tasks` table, with the values as SQLite keeps
them after column affinity was applied. -/
structure StoredRow where
  id : Int
  name : SQLVal
  description : SQLVal
  priority : SQLVal
  created_at : SQLVal
  due_date : SQLVal
  is_complete : SQLVal
  is_hidden : SQLVal
  meta_data : SQLVal
deriving DecidableEq, Repr

/-- A row as a cursor produces it: the columns the SELECT named, in order,
with their values. -/
def Row : Type := List (String × SQLVal)

/-- `row[key]` on a `sqlite3.Row`: the value of the named column, or an
error when the SELECT did not produce that column. -/
def rowGet (row : Row) (key : String) : Except String SQLVal :=
  match row.find? (fun p => p.1 == key) with
  | some p => Except.ok p.2
  | none => Except.error ("no such column: " ++ key)

/-- The body of the loop of `TaskDB._create_tasks_list`: build one `Task`
from one row, reading the nine columns in source order. -/
def taskOfRow (row : Row) : Except String Task := do
  let i ← rowGet row "id"
  let n ← rowGet row "name"
  let d ← rowGet row "description"
  let p ← rowGet row "priority"
  let c ← rowGet row "created_at"
  let dd ← rowGet row "due_date"
  let ic ← rowGet row "is_complete"
  let ih ← rowGet row "is_hidden"
  let md ← rowGet row "meta_data"
  pure { id := i, name := n, description := d, priority := p, created_at := c,
         due_date := dd, is_complete := pyTruthy ic, is_hidden := pyTruthy ih,
         meta_data := md }

/-- `TaskDB._create_tasks_list`. -/
def createTasksList (rows : List Row) : Except String (List Task) :=
  rows.mapM taskOfRow

/-- A full `select * from tasks` row for one stored row: all nine columns in
table order. -/
def rowOfStored (r : StoredRow) : Row :=
  [("id", SQLVal.int r.id), ("name", r.name), ("description", r.description),
   ("priority", r.priority), ("created_at", r.created_at),
   ("due_date", r.due_date), ("is_complete", r.is_complete),
   ("is_hidden", r.is_hidden), ("meta_data", r.meta_data)]

/-- The `Task` that `_create_tasks_list` builds from a full row of the
stored row `r`. -/
def taskOfStoredRow (r : StoredRow) : Task :=
  { id := SQLVal.int r.id, name := r.name, description := r.description,
    priority := r.priority, created_at := r.created_at, due_date := r.due_date,
    is_complete := pyTruthy r.is_complete, is_hidden := pyTruthy r.is_hidden,
    meta_data := r.meta_data }

/-- The state of the `tasks` table: the rows in insertion order and the
next autoincrement id. -/
structure DBState where
  rows : List StoredRow
  nextId : Int
deriving DecidableEq, Repr

/-- The state right after `_init_db` on a fresh file: no rows, ids start
at 1. -/
def dbEmpty : DBState := { rows := [], nextId := 1 }

/-- The row that `add_task` binds for `task` under autoincrement id `i`,
with column affinity applied: the columns of the INSERT at line 73 of
`database.py`, with `created_at` defaulted to `now` when the passed value is
falsy (`task.created_at or datetime.now().strftime(...)`, line 75). -/
def insertedRow (now : String) (task : Task) (i : Int) : StoredRow :=
  { id := i
    name := textAffinity task.name
    description := textAffinity task.description
    priority := numAffinity task.priority
    created_at :=
      textAffinity (if pyTruthy task.created_at then task.created_at else SQLVal.text now)
    due_date := numAffinity task.due_date
    is_complete := SQLVal.int (if task.is_complete then 1 else 0)
    is_hidden := SQLVal.int (if task.is_hidden then 1 else 0)
    meta_data := textAffinity task.meta_data }

/-- `TaskDB.add_task`.  `now` is the `datetime.now().strftime(...)`
timestamp used when `task.created_at` is falsy.  Every column is bound
explicitly; binding `NULL` for a NOT NULL column fails the INSERT with an
integrity error and inserts nothing (the schema defaults are never
consulted, because they apply only to columns absent from the INSERT's
column list). -/
def add_task (now : String) (task : Task) (db : DBState) : Except String DBState :=
  if (insertedRow now task db.nextId).name = SQLVal.null then
    Except.error "NOT NULL constraint failed: tasks.name"
  else if (insertedRow now task db.nextId).description = SQLVal.null then
    Except.error "NOT NULL constraint failed: tasks.description"
  else if (insertedRow now task db.nextId).priority = SQLVal.null then
    Except.error "NOT NULL constraint failed: tasks.priority"
  else if (insertedRow now task db.nextId).due_date = SQLVal.null then
    Except.error "NOT NULL constraint failed: tasks.due_date"
  else
    Except.ok { rows := db.rows ++ [insertedRow now task db.nextId],
                nextId := db.nextId + 1 }

/-- The keyword fieldset of `TaskDB.edit_task`, typed as the callers and the
`Task` dataclass type the column values (the spec's "well-typed values").
`none` means the key is absent from the fieldset. -/
structure EditFields where
  id : Option Int := none
  name : Option String := none
  description : Option String := none
  priority : Option Int := none
  created_at : Option String := none
  due_date : Option String := none
  is_complete : Option Bool := none
  is_hidden : Option Bool := none
  meta_data : Option (Option String) := none
deriving DecidableEq, Repr

/-- Whether the fieldset is empty once the `id` key has been popped
(lines 89-92 of `database.py`). -/
def noFields (f : EditFields) : Bool :=
  f.name.isNone && f.description.isNone && f.priority.isNone &&
  f.created_at.isNone && f.due_date.isNone && f.is_complete.isNone &&
  f.is_hidden.isNone && f.meta_data.isNone

/-- Apply the UPDATE's SET clause to one row, with column affinity.  The
`id` key was popped before this point, so `f.id` is never applied. -/
def applyFields (f : EditFields) (r : StoredRow) : StoredRow :=
  { r with
    name := match f.name with
      | some s => SQLVal.text s
      | none => r.name
    description := match f.description with
      | some s => SQLVal.text s
      | none => r.description
    priority := match f.priority with
      | some n => SQLVal.int n
      | none => r.priority
    created_at := match f.created_at with
      | some s => SQLVal.text s
      | none => r.created_at
    due_date := match f.due_date with
      | some s => numAffinity (SQLVal.text s)
      | none => r.due_date
    is_complete := match f.is_complete with
      | some b => SQLVal.int (if b then 1 else 0)
      | none => r.is_complete
    is_hidden := match f.is_hidden with
      | some b => SQLVal.int (if b then 1 else 0)
      | none => r.is_hidden
    meta_data := match f.meta_data with
      | some (some s) => SQLVal.text s
      | some none => SQLVal.null
      | none => r.meta_data }

/-- `TaskDB.edit_task`: pop `id` from the fieldset, return unchanged when
the remaining fieldset is empty, otherwise UPDATE the rows matching the id
(zero matching rows is a silent no-op). -/
def edit_task (task_id : Int) (f : EditFields) (db : DBState) : DBState :=
  if noFields f then db
  else { db with
         rows := db.rows.map (fun r => if r.id == task_id then applyFields f r else r) }

/-- `TaskDB.remove_task`: soft delete, `UPDATE tasks SET is_hidden = 1
WHERE id = ?` (zero matching rows is a silent no-op). -/
def remove_task (task_id : Int) (db : DBState) : DBState :=
  { db with
    rows := db.rows.map (fun r =>
      if r.id == task_id then { r with is_hidden := SQLVal.int 1 } else r) }

/-- `TaskDB.get_all_incomplete_tasks`:
`select * from tasks where is_hidden = 0 and is_complete = 0`.  A stored
text value never compares equal to the integer literal `0`. -/
def get_all_incomplete_tasks (db : DBState) : Except String (List Task) :=
  createTasksList
    ((db.rows.filter (fun r =>
        decide (r.is_hidden = SQLVal.int 0) && decide (r.is_complete = SQLVal.int 0))).map
      rowOfStored)

/-- `TaskDB.get_all_complete_tasks`:
`select * from tasks where is_hidden = 0 and is_complete = 1`. -/
def get_all_complete_tasks (db : DBState) : Except String (List Task) :=
  createTasksList
    ((db.rows.filter (fun r =>
        decide (r.is_hidden = SQLVal.int 0) && decide (r.is_complete = SQLVal.int 1))).map
      rowOfStored)

/-- `TaskDB.get_all_undue_tasks`: `select * from tasks where due_date = 0`.
The stored `due_date` matches the integer literal `0` exactly when it was
stored as the integer `0` (text never equals an integer in SQLite). -/
def get_all_undue_tasks (db : DBState) : Except String (List Task) :=
  createTasksList
    ((db.rows.filter (fun r => decide (r.due_date = SQLVal.int 0))).map rowOfStored)

/-- `TaskDB.get_task_by_id`: fetch the first row matching the id; `None`
when there is none, else `_create_tasks_list([row])[0]`. -/
def get_task_by_id (task_id : Int) (db : DBState) : Except String (Option Task) :=
  match db.rows.find? (fun r => r.id == task_id) with
  | none => Except.ok none
  | some r => do
      let ts ← createTasksList [rowOfStored r]
      match ts with
      | [] => Except.error "list index out of range"
      | t :: _ => Except.ok (some t)

/-- `TaskDB.get_days_until_due`:
`select id, name, julianday(due_date) - julianday('now') as diff_days from
tasks where id = ?`, then `_create_tasks_list(rows)`.  The produced rows
carry only the three selected columns.  `jd` abstracts the value of the
`diff_days` expression as a function of the stored `due_date`; every result
below holds for any `jd`, because `_create_tasks_list` fails before it ever
uses the `diff_days` column. -/
def get_days_until_due (jd : SQLVal → SQLVal) (task_id : Int) (db : DBState) :
    Except String (List Task) :=
  createTasksList
    ((db.rows.filter (fun r => r.id == task_id)).map (fun r =>
      [("id", SQLVal.int r.id), ("name", r.name), ("diff_days", jd r.due_date)]))

/-- The store states reachable through the public write operations from a
fresh database. -/
inductive Reachable : DBState → Prop where
  | init : Reachable dbEmpty
  | add (now : String) (t : Task) (db db' : DBState) :
      Reachable db → add_task now t db = Except.ok db' → Reachable db'
  | edit (i : Int) (f : EditFields) (db : DBState) :
      Reachable db → Reachable (edit_task i f db)
  | remove (i : Int) (db : DBState) :
      Reachable db → Reachable (remove_task i db)

/-- The flag columns of a row hold the integers 0 or 1. -/
def GoodRow (r : StoredRow) : Prop :=
  (r.is_complete = SQLVal.int 0 ∨ r.is_complete = SQLVal.int 1) ∧
  (r.is_hidden = SQLVal.int 0 ∨ r.is_hidden = SQLVal.int 1)

/-- Structural invariant of reachable states: flags are 0/1 integers, ids
are below the next autoincrement id, and ids are pairwise distinct. -/
def Inv (db : DBState) : Prop :=
  (∀ r ∈ db.rows, GoodRow r ∧ r.id < db.nextId) ∧
  (db.rows.map (fun r => r.id)).Nodup

/-- A task whose fields hold values of the types the `Task` dataclass
declares: `name`, `description` strings, `priority` an integer,
`created_at`, `due_date`, `meta_data` optional strings. -/
def wellTypedTask (t : Task) : Bool :=
  t.name.isText && t.description.isText && t.priority.isInt &&
  (t.created_at.isNull || t.created_at.isText) &&
  (t.due_date.isNull || t.due_date.isText) &&
  (t.meta_data.isNull || t.meta_data.isText)

/-- The task's `due_date` is a text value that is not a well-formed numeric
literal — neither an integer literal nor a real literal (e.g. a
`YYYY-MM-DD` date string) — so NUMERIC affinity stores it unchanged. -/
def dueNonNumericText (t : Task) : Bool :=
  match t.due_date with
  | SQLVal.text s => (intLiteral s).isNone && !(realLiteral s)
  | _ => false

/-! ### Lemmas about the embedding -/

theorem SQLVal.isText_iff {v : SQLVal} : v.isText = true ↔ ∃ s, v = SQLVal.text s := by
  cases v <;> simp [SQLVal.isText]

theorem SQLVal.isInt_iff {v : SQLVal} : v.isInt = true ↔ ∃ n, v = SQLVal.int n := by
  cases v <;> simp [SQLVal.isInt]

theorem SQLVal.isNull_iff {v : SQLVal} : v.isNull = true ↔ v = SQLVal.null := by
  cases v <;> simp [SQLVal.isNull]

theorem taskOfRow_rowOfStored (r : StoredRow) :
    taskOfRow (rowOfStored r) = Except.ok (taskOfStoredRow r) := rfl

theorem createTasksList_map_rowOfStored (l : List StoredRow) :
    createTasksList (l.map rowOfStored) = Except.ok (l.map taskOfStoredRow) := by
  induction l with
  | nil => rfl
  | cons r l ih =>
      simp only [createTasksList, List.map_cons, List.mapM_cons,
        taskOfRow_rowOfStored] at ih ⊢
      rw [ih]
      rfl

theorem incomplete_tasks_eq (db : DBState) :
    get_all_incomplete_tasks db =
      Except.ok ((db.rows.filter (fun r =>
        decide (r.is_hidden = SQLVal.int 0) &&
          decide (r.is_complete = SQLVal.int 0))).map taskOfStoredRow) :=
  createTasksList_map_rowOfStored _

theorem complete_tasks_eq (db : DBState) :
    get_all_complete_tasks db =
      Except.ok ((db.rows.filter (fun r =>
        decide (r.is_hidden = SQLVal.int 0) &&
          decide (r.is_complete = SQLVal.int 1))).map taskOfStoredRow) :=
  createTasksList_map_rowOfStored _

theorem undue_tasks_eq (db : DBState) :
    get_all_undue_tasks db =
      Except.ok ((db.rows.filter (fun r =>
        decide (r.due_date = SQLVal.int 0))).map taskOfStoredRow) :=
  createTasksList_map_rowOfStored _

theorem add_task_ok {now : String} {t : Task} {db db' : DBState}
    (h : add_task now t db = Except.ok db') :
    db' = { rows := db.rows ++ [insertedRow now t db.nextId],
            nextId := db.nextId + 1 } := by
  unfold add_task at h
  split at h
  · exact Except.noConfusion h
  · split at h
    · exact Except.noConfusion h
    · split at h
      · exact Except.noConfusion h
      · split at h
        · exact Except.noConfusion h
        · exact (Except.ok.inj h).symm

theorem goodRow_insertedRow (now : String) (t : Task) (i : Int) :
    GoodRow (insertedRow now t i) := by
  constructor
  · cases t.is_complete <;> simp [insertedRow, GoodRow]
  · cases t.is_hidden <;> simp [insertedRow, GoodRow]

theorem applyFields_id (f : EditFields) (r : StoredRow) :
    (applyFields f r).id = r.id := rfl

theorem goodRow_applyFields {f : EditFields} {r : StoredRow} (h : GoodRow r) :
    GoodRow (applyFields f r) := by
  obtain ⟨h1, h2⟩ := h
  constructor
  · cases hc : f.is_complete with
    | none => simpa [applyFields, hc] using h1
    | some b => cases b <;> simp [applyFields, hc]
  · cases hc : f.is_hidden with
    | none => simpa [applyFields, hc] using h2
    | some b => cases b <;> simp [applyFields, hc]

theorem inv_dbEmpty : Inv dbEmpty := by
  simp [Inv, dbEmpty]

theorem inv_add {now : String} {t : Task} {db db' : DBState} (hinv : Inv db)
    (h : add_task now t db = Except.ok db') : Inv db' := by
  obtain rfl := add_task_ok h
  obtain ⟨hrows, hnd⟩ := hinv
  constructor
  · intro r hr
    rcases List.mem_append.1 hr with hl | hx
    · obtain ⟨hg, hlt⟩ := hrows r hl
      refine ⟨hg, ?_⟩
      show r.id < db.nextId + 1
      omega
    · simp only [List.mem_singleton] at hx
      subst hx
      refine ⟨goodRow_insertedRow now t db.nextId, ?_⟩
      show (insertedRow now t db.nextId).id < db.nextId + 1
      simp only [insertedRow]
      omega
  · simp only [List.map_append, List.map_cons, List.map_nil, List.nodup_append]
    refine ⟨hnd, List.nodup_singleton _, ?_⟩
    intro a ha hb
    simp only [List.mem_map] at ha
    obtain ⟨r, hr, rfl⟩ := ha
    have := (hrows r hr).2
    simp only [List.mem_singleton, insertedRow] at hb
    omega

theorem inv_edit {i : Int} {f : EditFields} {db : DBState} (hinv : Inv db) :
    Inv (edit_task i f db) := by
  unfold edit_task
  split
  · exact hinv
  · obtain ⟨hrows, hnd⟩ := hinv
    constructor
    · intro r hr
      simp only [List.mem_map] at hr
      obtain ⟨x, hx, rfl⟩ := hr
      obtain ⟨hg, hlt⟩ := hrows x hx
      by_cases hxi : (x.id == i) = true
      · simp only [hxi, if_true]
        exact ⟨goodRow_applyFields hg, by rw [applyFields_id]; exact hlt⟩
      · simp only [hxi, if_false]
        exact ⟨hg, hlt⟩
    · show ((db.rows.map (fun r =>
          if r.id == i then applyFields f r else r)).map (fun r => r.id)).Nodup
      have heq : (db.rows.map (fun r =>
          if r.id == i then applyFields f r else r)).map (fun r => r.id) =
          db.rows.map (fun r => r.id) := by
        rw [List.map_map]
        refine List.map_congr_left ?_
        intro x hx
        by_cases hxi : (x.id == i) = true <;>
          simp [hxi, Function.comp, applyFields_id]
      rw [heq]
      exact hnd

theorem inv_remove {i : Int} {db : DBState} (hinv : Inv db) :
    Inv (remove_task i db) := by
  obtain ⟨hrows, hnd⟩ := hinv
  constructor
  · intro r hr
    simp only [remove_task, List.mem_map] at hr
    obtain ⟨x, hx, rfl⟩ := hr
    obtain ⟨⟨hg1, hg2⟩, hlt⟩ := hrows x hx
    by_cases hxi : (x.id == i) = true
    · simp only [hxi, if_true]
      exact ⟨⟨hg1, Or.inr rfl⟩, hlt⟩
    · simp only [hxi, if_false]
      exact ⟨⟨hg1, hg2⟩, hlt⟩
  · show ((db.rows.map (fun r =>
        if r.id == i then { r with is_hidden := SQLVal.int 1 } else r)).map
          (fun r => r.id)).Nodup
    have heq : (db.rows.map (fun r =>
        if r.id == i then { r with is_hidden := SQLVal.int 1 } else r)).map
          (fun r => r.id) = db.rows.map (fun r => r.id) := by
      rw [List.map_map]
      refine List.map_congr_left ?_
      intro x hx
      by_cases hxi : (x.id == i) = true <;> simp [hxi, Function.comp]
    rw [heq]
    exact hnd

theorem inv_of_reachable {db : DBState} (h : Reachable db) : Inv db := by
  induction h with
  | init => exact inv_dbEmpty
  | add now t db db' hr hok ih => exact inv_add ih hok
  | edit i f db hr ih => exact inv_edit ih
  | remove i db hr ih => exact inv_remove ih

theorem find?_id_eq_some {l : List StoredRow} {i : Int} {r : StoredRow}
    (hnd : (l.map (fun x => x.id)).Nodup) (hr : r ∈ l) (hi : r.id = i) :
    l.find? (fun x => x.id == i) = some r := by
  induction l with
  | nil => cases hr
  | cons a l ih =>
      simp only [List.map_cons, List.nodup_cons] at hnd
      rcases List.mem_cons.1 hr with rfl | hm
      · exact List.find?_cons_of_pos _ (by simp [hi])
      · have hne : (a.id == i) = false := by
          simp only [beq_eq_false_iff_ne, ne_eq]
          intro he
          exact hnd.1 (by rw [he, ← hi]; exact List.mem_map_of_mem _ hm)
        rw [List.find?_cons_of_neg _ (by simp [hne])]
        exact ih hnd.2 hm

theorem get_task_by_id_found {db : DBState} {i : Int} {r : StoredRow}
    (h : db.rows.find? (fun x => x.id == i) = some r) :
    get_task_by_id i db = Except.ok (some (taskOfStoredRow r)) := by
  unfold get_task_by_id
  rw [h]
  rfl

theorem get_task_by_id_missing {db : DBState} {i : Int}
    (h : ∀ r ∈ db.rows, r.id ≠ i) :
    get_task_by_id i db = Except.ok none := by
  unfold get_task_by_id
  rw [List.find?_eq_none.2 (fun x hx => by simpa using h x hx)]

theorem list_map_id_of {α : Type} {l : List α} {f : α → α}
    (h : ∀ x ∈ l, f x = x) : l.map f = l := by
  induction l with
  | nil => rfl
  | cons a l ih =>
      simp only [List.map_cons, h a (List.mem_cons_self a l),
        ih (fun x hx => h x (List.mem_cons_of_mem a hx))]

/-! ### Concrete fixtures used by witnesses and counterexamples -/

/-- A well-typed task as the presentation shell creates one: a date-string
due date, a caller-supplied creation timestamp. -/
def taskA : Task :=
  { id := SQLVal.null, name := SQLVal.text "write spec",
    description := SQLVal.text "draft it", priority := SQLVal.int 2,
    created_at := SQLVal.text "2025-10-10 09:00:00",
    due_date := SQLVal.text "2025-10-12", is_complete := false,
    is_hidden := false, meta_data := SQLVal.text "\x7b\x7d" }

/-- The row `add_task` stores for `taskA` as the first insert of a fresh
database. -/
def rowA : StoredRow :=
  { id := 1, name := SQLVal.text "write spec",
    description := SQLVal.text "draft it", priority := SQLVal.int 2,
    created_at := SQLVal.text "2025-10-10 09:00:00",
    due_date := SQLVal.text "2025-10-12", is_complete := SQLVal.int 0,
    is_hidden := SQLVal.int 0, meta_data := SQLVal.text "\x7b\x7d" }

/-- The store after inserting `taskA` into a fresh database. -/
def db1 : DBState := { rows := [rowA], nextId := 2 }

theorem add_taskA : add_task "2025-10-10 09:00:00" taskA dbEmpty = Except.ok db1 := rfl

theorem reachable_db1 : Reachable db1 :=
  Reachable.add "2025-10-10 09:00:00" taskA dbEmpty db1 Reachable.init add_taskA

/-! ### The claims -/

/-- A list produced by the `get_days_until_due` SELECT: for every row
matching the id, `_create_tasks_list` fails at the `description` lookup,
whatever the date arithmetic produced. -/
theorem daysRows_error {jd : SQLVal → SQLVal} {i : Int} :
    ∀ l : List StoredRow, (∃ r ∈ l, r.id = i) →
      createTasksList ((l.filter (fun r => r.id == i)).map (fun r =>
        [("id", SQLVal.int r.id), ("name", r.name),
         ("diff_days", jd r.due_date)])) =
      Except.error "no such column: description" := by
  intro l h
  induction l with
  | nil =>
      obtain ⟨r, hr, _⟩ := h
      cases hr
  | cons a l ih =>
      obtain ⟨r, hr, hi⟩ := h
      by_cases ha : (a.id == i) = true
      · simp only [List.filter_cons, ha, if_true, List.map_cons,
          createTasksList, List.mapM_cons]
        have hta : taskOfRow [("id", SQLVal.int a.id), ("name", a.name),
            ("diff_days", jd a.due_date)] =
            Except.error "no such column: description" := rfl
        rw [hta]
        rfl
      · have ha2 : (a.id == i) = false := by simpa using ha
        simp only [List.filter_cons, ha2, Bool.false_eq_true, if_false]
        apply ih
        rcases List.mem_cons.1 hr with rfl | hm
        · exact absurd (by simp [hi]) ha
        · exact ⟨r, hm, hi⟩

/-- C1: refuted as stated; the code raises instead.  For every stored task
matching the requested id, `get_days_until_due` does not return a
task-shaped result carrying the day difference: the SELECT produces rows
with only the columns `id`, `name`, `diff_days`, and `_create_tasks_list`
then fails looking up the `description` column — for any semantics `jd`
of the `julianday` expression. -/
theorem C1_daysUntilDue_missing_column (jd : SQLVal → SQLVal) (i : Int)
    (db : DBState) (h : ∃ r ∈ db.rows, r.id = i) :
    get_days_until_due jd i db = Except.error "no such column: description" :=
  daysRows_error db.rows h

/-- C1 witness: the failure on a concrete store holding one task with id 1
whose due date is the current date. -/
theorem C1_witness :
    get_days_until_due (fun _ => SQLVal.int 0) 1 db1 =
      Except.error "no such column: description" :=
  C1_daysUntilDue_missing_column (fun _ => SQLVal.int 0) 1 db1
    ⟨rowA, by decide, rfl⟩

/-- C5: `get_all_undue_tasks` returns exactly the tasks whose stored
`due_date` is the integer 0 — which is how the unset sentinel `"0"` is
stored under the column's NUMERIC affinity (last conjunct) — irrespective
of `is_complete` and `is_hidden`; a parseable date string is stored as
text and never matches. -/
theorem C5_listUndated_exact (db : DBState) :
    ∃ us, get_all_undue_tasks db = Except.ok us ∧
      (∀ t, t ∈ us ↔
        ∃ r, r ∈ db.rows ∧ r.due_date = SQLVal.int 0 ∧ t = taskOfStoredRow r) ∧
      numAffinity (SQLVal.text "0") = SQLVal.int 0 := by
  refine ⟨_, undue_tasks_eq db, ?_, rfl⟩
  intro t
  constructor
  · intro ht
    simp only [List.mem_map] at ht
    obtain ⟨r, hr, rfl⟩ := ht
    have hf := List.mem_filter.1 hr
    refine ⟨r, hf.1, ?_, rfl⟩
    simpa using hf.2
  · rintro ⟨r, hr, hdue, rfl⟩
    exact List.mem_map_of_mem _ (List.mem_filter.2 ⟨hr, by simp [hdue]⟩)

/-- C6: an update with an empty field set (equally, with only the stripped
`id` key) returns without error, executes no statement, and leaves the
store unchanged. -/
theorem C6_empty_fieldset_noop (i : Int) (v : Option Int) (db : DBState) :
    edit_task i { id := v } db = db := rfl

/-- C7: no call to `edit_task`, with any fieldset, changes the `id` column
of any row (a fieldset entry for `id` is popped before the UPDATE is
built), and the autoincrement counter is untouched. -/
theorem C7_id_immutable (i : Int) (f : EditFields) (db : DBState) :
    (edit_task i f db).rows.map (fun r => r.id) = db.rows.map (fun r => r.id) ∧
    (edit_task i f db).nextId = db.nextId := by
  unfold edit_task
  split
  · exact ⟨rfl, rfl⟩
  · refine ⟨?_, rfl⟩
    show (db.rows.map (fun r => if r.id == i then applyFields f r else r)).map
        (fun r => r.id) = db.rows.map (fun r => r.id)
    rw [List.map_map]
    refine List.map_congr_left ?_
    intro x hx
    by_cases hxi : (x.id == i) = true <;>
      simp [hxi, Function.comp, applyFields_id]

/-- C8: against an id matching no row, both the soft delete and an update
with any fieldset complete without error and leave the store exactly as it
was (an UPDATE affecting zero rows is a silent no-op). -/
theorem C8_missing_id_silent_noop (i : Int) (f : EditFields) (db : DBState)
    (h : ∀ r ∈ db.rows, r.id ≠ i) :
    remove_task i db = db ∧ edit_task i f db = db := by
  have hmap : ∀ g : StoredRow → StoredRow,
      db.rows.map (fun r => if r.id == i then g r else r) = db.rows := by
    intro g
    refine list_map_id_of ?_
    intro x hx
    have hxf : (x.id == i) = false := by simpa using h x hx
    simp [hxf]
  constructor
  · show { db with rows := db.rows.map (fun r =>
        if r.id == i then { r with is_hidden := SQLVal.int 1 } else r) } = db
    rw [hmap]
  · unfold edit_task
    split
    · rfl
    · show { db with rows := db.rows.map (fun r =>
          if r.id == i then applyFields f r else r) } = db
      rw [hmap]

/-- C8 witness: soft-deleting and editing the absent id 2 in a one-task
store changes nothing. -/
theorem C8_witness :
    remove_task 2 db1 = db1 ∧
    edit_task 2 { name := some "renamed" } db1 = db1 :=
  C8_missing_id_silent_noop 2 { name := some "renamed" } db1 (by decide)

/-- C9: `get_task_by_id` never raises: it always returns a value (first
conjunct); it returns the explicit not-found result for an id with no
matching row, and the single matching task (under the distinct-ids
invariant of every reachable store) otherwise. -/
theorem C9_getById_total (i : Int) (db : DBState) :
    (∃ res, get_task_by_id i db = Except.ok res) ∧
    ((∀ r ∈ db.rows, r.id ≠ i) → get_task_by_id i db = Except.ok none) ∧
    (∀ r, (db.rows.map (fun x => x.id)).Nodup → r ∈ db.rows → r.id = i →
      get_task_by_id i db = Except.ok (some (taskOfStoredRow r))) := by
  refine ⟨?_, get_task_by_id_missing, ?_⟩
  · cases hf : db.rows.find? (fun x => x.id == i) with
    | none =>
        refine ⟨none, ?_⟩
        unfold get_task_by_id
        rw [hf]
    | some r => exact ⟨some (taskOfStoredRow r), get_task_by_id_found hf⟩
  · intro r hnd hr hi
    exact get_task_by_id_found (find?_id_eq_some hnd hr hi)

/-- C9 witness: missing id 2 yields the not-found result, present id 1
yields its single task. -/
theorem C9_witness :
    get_task_by_id 2 db1 = Except.ok none ∧
    get_task_by_id 1 db1 = Except.ok (some (taskOfStoredRow rowA)) :=
  ⟨(C9_getById_total 2 db1).2.1 (by decide),
   (C9_getById_total 1 db1).2.2 rowA (by decide) (by decide) rfl⟩

/-- C10: creating a task whose `due_date` is `None` binds NULL for the
NOT NULL `due_date` column, so the INSERT fails with an integrity error
and no row is stored; the schema default is never applied because every
column is bound explicitly. -/
theorem C10_null_due_date_rejected (now : String) (t : Task) (db : DBState)
    (hn : t.name.isText = true) (hd : t.description.isText = true)
    (hp : t.priority.isInt = true) (hdue : t.due_date = SQLVal.null) :
    add_task now t db = Except.error "NOT NULL constraint failed: tasks.due_date" := by
  obtain ⟨ns, hns⟩ := SQLVal.isText_iff.1 hn
  obtain ⟨ds, hds⟩ := SQLVal.isText_iff.1 hd
  obtain ⟨pn, hpn⟩ := SQLVal.isInt_iff.1 hp
  simp [add_task, insertedRow, hns, hds, hpn, hdue, textAffinity, numAffinity]

/-- C10 witness: a concrete task with a NULL due date is rejected by the
store. -/
theorem C10_witness :
    add_task "2025-10-12 00:00:00"
      { id := SQLVal.null, name := SQLVal.text "n",
        description := SQLVal.text "d", priority := SQLVal.int 0,
        created_at := SQLVal.null, due_date := SQLVal.null,
        is_complete := false, is_hidden := false, meta_data := SQLVal.null }
      dbEmpty =
    Except.error "NOT NULL constraint failed: tasks.due_date" :=
  C10_null_due_date_rejected "2025-10-12 00:00:00" _ dbEmpty rfl rfl rfl rfl

/-- C3: in every reachable store state the incomplete and complete listings
are disjoint, and together they are exactly the tasks of the rows with
`is_hidden` false: every visible task is in exactly one of the two. -/
theorem C3_visible_partition (db : DBState) (hreach : Reachable db) :
    ∃ inc comp, get_all_incomplete_tasks db = Except.ok inc ∧
      get_all_complete_tasks db = Except.ok comp ∧
      (∀ t, t ∈ inc → t ∉ comp) ∧
      (∀ t, (t ∈ inc ∨ t ∈ comp) ↔
        ∃ r, r ∈ db.rows ∧ pyTruthy r.is_hidden = false ∧ t = taskOfStoredRow r) := by
  obtain ⟨hrows, _⟩ := inv_of_reachable hreach
  refine ⟨_, _, incomplete_tasks_eq db, complete_tasks_eq db, ?_, ?_⟩
  · intro t hti htc
    simp only [List.mem_map] at hti htc
    obtain ⟨r, hr, rfl⟩ := hti
    obtain ⟨r2, hr2, heq⟩ := htc
    have hf := (List.mem_filter.1 hr).2
    have hf2 := (List.mem_filter.1 hr2).2
    simp only [Bool.and_eq_true, decide_eq_true_eq] at hf hf2
    have h1 : (taskOfStoredRow r).is_complete = false := by
      simp [taskOfStoredRow, hf.2, pyTruthy]
    have h2 : (taskOfStoredRow r).is_complete = true := by
      rw [← heq]
      simp [taskOfStoredRow, hf2.2, pyTruthy]
    rw [h1] at h2
    exact Bool.noConfusion h2
  · intro t
    constructor
    · rintro (ht | ht) <;>
        · simp only [List.mem_map] at ht
          obtain ⟨r, hr, rfl⟩ := ht
          have hf := List.mem_filter.1 hr
          have hcond := hf.2
          simp only [Bool.and_eq_true, decide_eq_true_eq] at hcond
          exact ⟨r, hf.1, by simp [hcond.1, pyTruthy], rfl⟩
    · rintro ⟨r, hr, hvis, rfl⟩
      obtain ⟨⟨hcg, hhg⟩, _⟩ := hrows r hr
      have hh0 : r.is_hidden = SQLVal.int 0 := by
        rcases hhg with h0 | h1
        · exact h0
        · rw [h1] at hvis
          simp [pyTruthy] at hvis
      rcases hcg with hc0 | hc1
      · exact Or.inl (List.mem_map_of_mem _
          (List.mem_filter.2 ⟨hr, by simp [hh0, hc0]⟩))
      · exact Or.inr (List.mem_map_of_mem _
          (List.mem_filter.2 ⟨hr, by simp [hh0, hc1]⟩))

/-- C3 witness: the partition on the concrete one-task reachable store. -/
theorem C3_witness :
    ∃ inc comp, get_all_incomplete_tasks db1 = Except.ok inc ∧
      get_all_complete_tasks db1 = Except.ok comp ∧
      (∀ t, t ∈ inc → t ∉ comp) ∧
      (∀ t, (t ∈ inc ∨ t ∈ comp) ↔
        ∃ r, r ∈ db1.rows ∧ pyTruthy r.is_hidden = false ∧ t = taskOfStoredRow r) :=
  C3_visible_partition db1 reachable_db1

/-- C4: right after `remove_task id` on a stored task, the task appears in
neither the incomplete nor the complete listing, while `get_task_by_id`
still returns it with `is_hidden = true` and every other field unchanged. -/
theorem C4_softDelete_hides (db : DBState) (i : Int) (r : StoredRow)
    (hreach : Reachable db) (hr : r ∈ db.rows) (hi : r.id = i) :
    get_task_by_id i (remove_task i db) =
      Except.ok (some { taskOfStoredRow r with is_hidden := true }) ∧
    (∀ ts, get_all_incomplete_tasks (remove_task i db) = Except.ok ts →
      ∀ t ∈ ts, t.id ≠ SQLVal.int i) ∧
    (∀ ts, get_all_complete_tasks (remove_task i db) = Except.ok ts →
      ∀ t ∈ ts, t.id ≠ SQLVal.int i) := by
  obtain ⟨hrows, hnd⟩ := inv_of_reachable hreach
  have hfind : db.rows.find? (fun x => x.id == i) = some r :=
    find?_id_eq_some hnd hr hi
  refine ⟨?_, ?_, ?_⟩
  · have h1 : (remove_task i db).rows.find? (fun x => x.id == i) =
        some { r with is_hidden := SQLVal.int 1 } := by
      show (db.rows.map (fun x =>
          if x.id == i then { x with is_hidden := SQLVal.int 1 } else x)).find?
          (fun x => x.id == i) = _
      rw [List.find?_map]
      have hpg : ((fun x : StoredRow => x.id == i) ∘ (fun x =>
          if x.id == i then { x with is_hidden := SQLVal.int 1 } else x)) =
          (fun x : StoredRow => x.id == i) := by
        funext x
        by_cases hx : (x.id == i) = true <;> simp [Function.comp, hx]
      rw [hpg, hfind]
      simp [hi]
    exact get_task_by_id_found h1
  · intro ts hts t htm hid
    rw [incomplete_tasks_eq] at hts
    obtain rfl := (Except.ok.inj hts).symm
    simp only [List.mem_map] at htm
    obtain ⟨x, hx, rfl⟩ := htm
    have hcond := (List.mem_filter.1 hx).2
    simp only [Bool.and_eq_true, decide_eq_true_eq] at hcond
    have hxid : x.id = i := by
      have : SQLVal.int x.id = SQLVal.int i := hid
      exact SQLVal.int.inj this
    obtain ⟨y, hy, hgy⟩ := List.mem_map.1 (List.mem_filter.1 hx).1
    by_cases hyi : (y.id == i) = true
    · rw [if_pos hyi] at hgy
      rw [← hgy] at hcond
      simp at hcond
    · rw [if_neg hyi] at hgy
      rw [← hgy] at hxid
      exact hyi (by simp [hxid])
  · intro ts hts t htm hid
    rw [complete_tasks_eq] at hts
    obtain rfl := (Except.ok.inj hts).symm
    simp only [List.mem_map] at htm
    obtain ⟨x, hx, rfl⟩ := htm
    have hcond := (List.mem_filter.1 hx).2
    simp only [Bool.and_eq_true, decide_eq_true_eq] at hcond
    have hxid : x.id = i := by
      have : SQLVal.int x.id = SQLVal.int i := hid
      exact SQLVal.int.inj this
    obtain ⟨y, hy, hgy⟩ := List.mem_map.1 (List.mem_filter.1 hx).1
    by_cases hyi : (y.id == i) = true
    · rw [if_pos hyi] at hgy
      rw [← hgy] at hcond
      simp at hcond
    · rw [if_neg hyi] at hgy
      rw [← hgy] at hxid
      exact hyi (by simp [hxid])

/-- C4 witness: soft-deleting the concrete task with id 1. -/
theorem C4_witness :
    get_task_by_id 1 (remove_task 1 db1) =
      Except.ok (some { taskOfStoredRow rowA with is_hidden := true }) ∧
    (∀ ts, get_all_incomplete_tasks (remove_task 1 db1) = Except.ok ts →
      ∀ t ∈ ts, t.id ≠ SQLVal.int 1) ∧
    (∀ ts, get_all_complete_tasks (remove_task 1 db1) = Except.ok ts →
      ∀ t ∈ ts, t.id ≠ SQLVal.int 1) :=
  C4_softDelete_hides db1 1 rowA reachable_db1 (by decide) rfl

/-- A task created with the unset-due-date sentinel `"0"` and an explicit
creation timestamp. -/
def taskSentinel : Task :=
  { id := SQLVal.null, name := SQLVal.text "no due yet",
    description := SQLVal.text "todo", priority := SQLVal.int 0,
    created_at := SQLVal.text "2025-10-11 08:00:00",
    due_date := SQLVal.text "0", is_complete := false, is_hidden := false,
    meta_data := SQLVal.null }

/-- The row stored for `taskSentinel`: NUMERIC affinity turned the text
`"0"` into the integer 0. -/
def rowSentinel : StoredRow :=
  { id := 1, name := SQLVal.text "no due yet",
    description := SQLVal.text "todo", priority := SQLVal.int 0,
    created_at := SQLVal.text "2025-10-11 08:00:00",
    due_date := SQLVal.int 0, is_complete := SQLVal.int 0,
    is_hidden := SQLVal.int 0, meta_data := SQLVal.null }

/-- The store after inserting `taskSentinel` into a fresh database. -/
def dbSentinel : DBState := { rows := [rowSentinel], nextId := 2 }

/-- C2 counterexample: insert a task whose `due_date` is the sentinel text
`"0"` (with `created_at` supplied, so no store default applies).  The task
that `get_task_by_id` returns differs from the input beyond the
store-assigned id: its `due_date` came back as the integer 0, not the text
`"0"`, because the `due_date` column's NUMERIC affinity converted it on
storage. -/
theorem C2_counterexample :
    add_task "2025-10-11 08:00:00" taskSentinel dbEmpty = Except.ok dbSentinel ∧
    get_task_by_id 1 dbSentinel = Except.ok (some (taskOfStoredRow rowSentinel)) ∧
    taskSentinel.due_date = SQLVal.text "0" ∧
    (taskOfStoredRow rowSentinel).due_date = SQLVal.int 0 ∧
    taskOfStoredRow rowSentinel ≠ { taskSentinel with id := SQLVal.int 1 } :=
  ⟨rfl, rfl, rfl, rfl, by decide⟩

/-- C2 as amended: for a well-typed task whose `due_date` is a non-numeric
text (e.g. a `YYYY-MM-DD` date string — excluded are the integer and real
literals that NUMERIC affinity rewrites, such as the sentinel `"0"`),
`get_task_by_id` at the assigned id returns the task equal to the input in
every field except the store-assigned `id` and, when the passed
`created_at` was omitted or empty, `created_at`. -/
theorem C2_create_getById_roundtrip (now : String) (t : Task)
    (db db' : DBState) (hreach : Reachable db)
    (hwt : wellTypedTask t = true) (hdue : dueNonNumericText t = true)
    (hadd : add_task now t db = Except.ok db') :
    get_task_by_id db.nextId db' =
      Except.ok (some { t with
        id := SQLVal.int db.nextId
        created_at := if pyTruthy t.created_at then t.created_at
          else SQLVal.text now }) := by
  obtain rfl := add_task_ok hadd
  obtain ⟨hrows, hnd⟩ := inv_of_reachable hreach
  have hfindold : db.rows.find? (fun x => x.id == db.nextId) = none := by
    refine List.find?_eq_none.2 (fun x hx => ?_)
    have hlt := (hrows x hx).2
    simp only [beq_iff_eq]
    omega
  have hfind : (db.rows ++ [insertedRow now t db.nextId]).find?
      (fun x => x.id == db.nextId) = some (insertedRow now t db.nextId) := by
    rw [List.find?_append, hfindold]
    simp [insertedRow]
  rw [@get_task_by_id_found
    ⟨db.rows ++ [insertedRow now t db.nextId], db.nextId + 1⟩
    db.nextId (insertedRow now t db.nextId) hfind]
  have heq : taskOfStoredRow (insertedRow now t db.nextId) =
      { t with
        id := SQLVal.int db.nextId
        created_at := if pyTruthy t.created_at then t.created_at
          else SQLVal.text now } := by
    cases t with
    | mk tid tname tdesc tprio tcreated tdue tic tih tmd =>
      simp only [wellTypedTask, Bool.and_eq_true] at hwt
      obtain ⟨⟨⟨⟨⟨hn, hdsc⟩, hp⟩, hc⟩, hdd⟩, hm⟩ := hwt
      obtain ⟨ns, rfl⟩ := SQLVal.isText_iff.1 hn
      obtain ⟨ds, rfl⟩ := SQLVal.isText_iff.1 hdsc
      obtain ⟨pn, rfl⟩ := SQLVal.isInt_iff.1 hp
      cases tdue with
      | null => simp [dueNonNumericText] at hdue
      | int n => simp [dueNonNumericText] at hdue
      | text s =>
          simp only [dueNonNumericText, Bool.and_eq_true,
            Option.isNone_iff_eq_none] at hdue
          obtain ⟨hdue1, -⟩ := hdue
          cases tcreated with
          | int n => simp [SQLVal.isNull, SQLVal.isText] at hc
          | null =>
              cases tmd with
              | int n => simp [SQLVal.isNull, SQLVal.isText] at hm
              | null =>
                  cases tic <;> cases tih <;>
                    simp [taskOfStoredRow, insertedRow, textAffinity,
                      numAffinity, pyTruthy, hdue1, apply_ite]
              | text ms =>
                  cases tic <;> cases tih <;>
                    simp [taskOfStoredRow, insertedRow, textAffinity,
                      numAffinity, pyTruthy, hdue1, apply_ite]
          | text cs =>
              cases tmd with
              | int n => simp [SQLVal.isNull, SQLVal.isText] at hm
              | null =>
                  cases tic <;> cases tih <;>
                    simp [taskOfStoredRow, insertedRow, textAffinity,
                      numAffinity, pyTruthy, hdue1, apply_ite]
                  all_goals (split <;> simp_all)
              | text ms =>
                  cases tic <;> cases tih <;>
                    simp [taskOfStoredRow, insertedRow, textAffinity,
                      numAffinity, pyTruthy, hdue1, apply_ite]
                  all_goals (split <;> simp_all)
  rw [heq]

/-- C2 witness: the round trip on the concrete date-due task `taskA`. -/
theorem C2_witness :
    get_task_by_id 1 db1 =
      Except.ok (some { taskA with
        id := SQLVal.int 1
        created_at := if pyTruthy taskA.created_at then taskA.created_at
          else SQLVal.text "2025-10-10 09:00:00" }) :=
  C2_create_getById_roundtrip "2025-10-10 09:00:00" taskA dbEmpty db1
    Reachable.init (by decide) (by decide) rfl

end Productiviti
